import Mathlib

/-!
Verification of the cookie-cutter event-sourcing / streaming core.

Shallow embedding of:
* the convention-based message dispatcher (src/unnamed/part_000),
* the event-sourced and streaming commit flavors, the aggregate loader,
  the retry-orchestrated dispatch loop and the EOS coordinator
  (documented in src/unnamed/part_001 and the spec; the implementing code
  is not under src/, so those parts are modelled from the spec), and
* the kafka source configuration defaults (src/packages/kafka/src/index.ts).
-/

/-! ## Convention-based message dispatcher (src/unnamed/part_000) -/

/-- A message as seen by the dispatcher: a type tag plus an opaque payload
(`IMessage` with `type` and `payload`). -/
structure Message (V : Type) where
  type : String
  payload : V

/-- Argument slot of a dispatcher call: `before` and `after` receive the whole
message, an on-handler receives only the payload (the second component of the
entries of the `calls` array in `dispatch`). -/
inductive DispatchArg (V : Type) where
  | whole (m : Message V)
  | payloadOnly (v : V)

/-- The target object wrapped by `ConventionBasedMessageDispatcher`: a
string-keyed method table (the JavaScript property lookup `this.target[name]`).
A method receives its argument and the dispatch context and returns a possibly
undefined value (`none` models `undefined`). -/
structure DispatchTarget (V C : Type) where
  method : String → Option (DispatchArg V → C → Option V)

/-- `canDispatch` from part_000 lines 14-19: resolve `on` plus the pretty event
name on the target and report whether the property is defined.  `pretty`
stands for `prettyEventName` (imported from `../utils`, which is not under
src/), kept abstract as a parameter. -/
def canDispatch {V C : Type} (pretty : String → String) (t : DispatchTarget V C)
    (msg : Message V) : Bool :=
  (t.method ("on" ++ pretty msg.type)).isSome

/-- The `calls` array built by `dispatch` (part_000 lines 23-27): method name,
argument, and the `store` flag that routes the call's return value into
`result`. -/
def dispatchCalls {V : Type} (pretty : String → String) (msg : Message V) :
    List (String × DispatchArg V × Bool) :=
  [("before", DispatchArg.whole msg, false),
   ("on" ++ pretty msg.type, DispatchArg.payloadOnly msg.payload, true),
   ("after", DispatchArg.whole msg, false)]

/-- The `for` loop of `dispatch` (part_000 lines 29-42): look up each named
method, invoke it when present, and overwrite `result` when the `store` flag
is set.  The returned list is the trace of performed calls (name and argument,
in call order); awaiting of thenable results is invisible in this pure
embedding, sequencing is the trace order. -/
def runCalls {V C : Type} (t : DispatchTarget V C) (ctx : C) :
    List (String × DispatchArg V × Bool) → Option V →
    List (String × DispatchArg V) × Option V
  | [], res => ([], res)
  | (name, a, store) :: rest, res =>
    match t.method name with
    | none => runCalls t ctx rest res
    | some f =>
      let val := f a ctx
      let out := runCalls t ctx rest (if store then val else res)
      ((name, a) :: out.1, out.2)

/-- `dispatch` from part_000 lines 21-45: run `before`, the on-handler and
`after` in order; `result` starts undefined and is set only by the call whose
`store` flag is true (the on-handler). -/
def dispatch {V C : Type} (pretty : String → String) (t : DispatchTarget V C)
    (msg : Message V) (ctx : C) : List (String × DispatchArg V) × Option V :=
  runCalls t ctx (dispatchCalls pretty msg) none

/-- The trace contributed by one optional method: empty when the method is
absent, a single call otherwise.  Used to state the shape of `dispatch`. -/
def optCall {V C : Type} (name : String) (a : DispatchArg V) :
    Option (DispatchArg V → C → Option V) → List (String × DispatchArg V)
  | none => []
  | some _ => [(name, a)]

/-! ## Event streams and the two commit flavors

Modelled from the spec (section 4.4) and the Streaming section of
src/unnamed/part_001; the Cosmos sink implementations are not under src/. -/

/-- A committed event: sequence number plus payload (type tag and body are
opaque to the store). -/
structure SeqEvent (P : Type) where
  seq : Nat
  payload : P

/-- The store: one ordered list of committed events per stream id. -/
def EventStore (P : Type) := String → List (SeqEvent P)

/-- Sequence number of the last event of a stream, with a default for the
empty stream. -/
def lastSeqD {P : Type} (d : Nat) (es : List (SeqEvent P)) : Nat :=
  (es.getLast?.map SeqEvent.seq).getD d

/-- Sequence number of the last event of a stream; 0 for the empty stream. -/
def lastSeq {P : Type} (es : List (SeqEvent P)) : Nat :=
  lastSeqD 0 es

/-- Assign consecutive sequence numbers starting at `start` to a batch of new
events. -/
def numberFrom {P : Type} : Nat → List P → List (SeqEvent P)
  | _, [] => []
  | s, p :: ps => ⟨s, p⟩ :: numberFrom (s + 1) ps

/-- Result of a commit attempt.  `StorageUnavailable` is in the taxonomy
(spec section 7) but is an infrastructure fault outside this pure model: the
modelled store itself never produces it. -/
inductive CommitResult where
  | Committed (newVersion : Nat)
  | Conflict
  | StorageUnavailable
deriving DecidableEq

/-- Modelled from the spec: the Optimistic-Concurrency Store's
`commit(streamId, expectedVersion, newEvents)` (spec section 4.4; the Cosmos
implementation is not under src/).  Atomically check that the stream's current
last sequence number equals `expectedVersion`; if so append all of `newEvents`
with consecutive sequence numbers starting at `expectedVersion + 1`, otherwise
append nothing and report `Conflict`. -/
def commit {P : Type} (store : EventStore P) (sid : String) (expectedVersion : Nat)
    (newEvents : List P) : CommitResult × EventStore P :=
  if lastSeq (store sid) = expectedVersion then
    (CommitResult.Committed (expectedVersion + newEvents.length),
     fun s => if s = sid then store sid ++ numberFrom (expectedVersion + 1) newEvents else store s)
  else
    (CommitResult.Conflict, store)

/-- Modelled from the spec: the append-only / streaming commit flavor (spec
section 4.4 (b), Streaming section of part_001; `Streaming.cosmosSink` is not
under src/).  No version precondition: the batch unconditionally receives the
next available sequence numbers. -/
def streamingCommit {P : Type} (store : EventStore P) (sid : String)
    (newEvents : List P) : CommitResult × EventStore P :=
  (CommitResult.Committed (lastSeq (store sid) + newEvents.length),
   fun s => if s = sid then store sid ++ numberFrom (lastSeq (store sid) + 1) newEvents
            else store s)

/-- Gapless check: the sequence numbers of `es` are `s, s+1, s+2, ...` in
order. -/
def gaplessFromB {P : Type} : Nat → List (SeqEvent P) → Bool
  | _, [] => true
  | s, e :: rest => e.seq == s && gaplessFromB (s + 1) rest

/-! ## Replay, snapshots and the aggregate loader

Modelled from the spec (sections 3, 4.2, 4.3) and the Snapshots section of
src/unnamed/part_001; the state provider implementation is not under src/. -/

/-- Replay: apply events in order to a seed state (Aggregator Dispatch applied
deterministically in stream order, spec section 3). -/
def replay {S P : Type} (apply : S → P → S) (seed : S) (ps : List P) : S :=
  ps.foldl apply seed

/-- Events of a stream with sequence number at most `n`. -/
def eventsThrough {P : Type} (es : List (SeqEvent P)) (n : Nat) : List (SeqEvent P) :=
  es.filter (fun e => decide (e.seq ≤ n))

/-- Events of a stream with sequence number strictly greater than `k` (the
"fetch all events after the seed sequence" step of the loader). -/
def eventsAfter {P : Type} (es : List (SeqEvent P)) (k : Nat) : List (SeqEvent P) :=
  es.filter (fun e => decide (k < e.seq))

/-- Outcome of fetching and deserializing the latest snapshot: absent,
present but damaged, or a usable (sequence number, state) pair. -/
inductive SnapshotFetch (S : Type) where
  | absent
  | corrupt
  | ok (seq : Nat) (state : S)

/-- Outcome of an event fetch against storage. -/
inductive FetchResult (A : Type) where
  | ok (value : A)
  | unavailable

/-- The only fatal condition of `load` (spec section 4.3). -/
inductive LoadError where
  | StorageUnavailable
deriving DecidableEq

/-- A versioned state handle (spec section 3). -/
structure StateRef (S : Type) where
  state : S
  version : Nat
deriving DecidableEq

/-- Seed of the loader: the snapshot's (sequence, state) when present and
deserializable, else the aggregator's default state at sequence 0. -/
def seedOf {S : Type} (dflt : S) : SnapshotFetch S → Nat × S
  | SnapshotFetch.ok k st => (k, st)
  | _ => (0, dflt)

/-- Modelled from the spec: the Aggregate Loader's `load(streamId)` (spec
section 4.3; the cosmos state provider is not under src/).  Seed from the
snapshot when usable, else from the default state at sequence 0; fetch the
events after the seed sequence (this fetch is the only fatal path); replay
them; return a StateRef versioned at the last applied sequence number, or the
seed sequence when no event was applied. -/
def load {S P : Type} (apply : S → P → S) (dflt : S)
    (fetchEvents : Nat → FetchResult (List (SeqEvent P))) (snap : SnapshotFetch S) :
    Except LoadError (StateRef S) :=
  let seed := seedOf dflt snap
  match fetchEvents seed.1 with
  | FetchResult.unavailable => Except.error LoadError.StorageUnavailable
  | FetchResult.ok evs =>
      Except.ok ⟨replay apply seed.2 (evs.map SeqEvent.payload), lastSeqD seed.1 evs⟩

/-! ## Retry-orchestrated dispatch loop

Modelled from the spec (section 4.5) and the `onMyInput` handler walkthrough
of src/unnamed/part_001; the loop implementation is not under src/. -/

/-- Terminal outcome of the dispatch loop for one inbound message. -/
inductive LoopOutcome (E : Type) where
  | Committed (events : List E)
  | MaxRetriesExceeded
deriving DecidableEq

/-- The loop's environment: the state produced by the fresh load of attempt
`n`, and whether the store accepts attempt `n` (`false` = version conflict).
Indexing by attempt lets concurrent writers change the stream between
attempts. -/
structure LoopEnv (S : Type) where
  loadAttempt : Nat → S
  accepts : Nat → Bool

/-- Modelled from the spec: one message's LOADING → HANDLING → COMMITTING
cycle with retry on conflict (spec section 4.5).  `fuel` is the remaining
retry budget, `n` the current attempt index: load fresh state, run the
handler, commit its declared events; on conflict discard both and start over
with the next attempt; an exhausted budget surfaces MaxRetriesExceeded. -/
def dispatchLoop {S E : Type} (handler : S → List E) (env : LoopEnv S) :
    Nat → Nat → LoopOutcome E
  | 0, _ => LoopOutcome.MaxRetriesExceeded
  | fuel + 1, n =>
    if env.accepts n then LoopOutcome.Committed (handler (env.loadAttempt n))
    else dispatchLoop handler env fuel (n + 1)

/-! ## EOS coordinator

Modelled from the spec (section 4.6); the kafka sink/source implementations
are not under src/ (only the configuration surface in
src/packages/kafka/src/index.ts is). -/

/-- Observable broker state under exactly-once semantics: the committed
consumer offset, the visible committed batches (each tagged with the offset
its transaction advanced to), and the open transaction's buffered messages,
if any. -/
structure EosState (M : Type) where
  offset : Nat
  log : List (Nat × List M)
  txn : Option (List M)

/-- Actions of the EOS coordinator: begin a transaction, produce a message
inside it, commit it together with the consumed offset, abort it, or crash
mid-transaction. -/
inductive EosAction (M : Type) where
  | beginTxn
  | produce (m : M)
  | commitTxn (newOffset : Nat)
  | abortTxn
  | crash

/-- Modelled from the spec: one step of the EOS coordinator (spec section
4.6).  Produced messages are buffered in the transaction; commit makes the
buffered batch visible and advances the offset as one unit; abort and crash
discard the buffer and touch neither the offset nor the visible log. -/
def eosStep {M : Type} (s : EosState M) : EosAction M → EosState M
  | EosAction.beginTxn => { s with txn := some [] }
  | EosAction.produce m =>
      match s.txn with
      | some buf => { s with txn := some (buf ++ [m]) }
      | none => s
  | EosAction.commitTxn o =>
      match s.txn with
      | some buf => ⟨o, s.log ++ [(o, buf)], none⟩
      | none => s
  | EosAction.abortTxn => { s with txn := none }
  | EosAction.crash => { s with txn := none }

/-- The starting broker state: offset 0, nothing visible, no open
transaction. -/
def eosStart {M : Type} : EosState M := ⟨0, [], none⟩

/-- Run a sequence of EOS actions from the starting state. -/
def eosRun {M : Type} (actions : List (EosAction M)) : EosState M :=
  actions.foldl eosStep eosStart

/-- The offset recorded by the last visible committed batch (0 when nothing
is visible yet). -/
def lastLoggedOffset {M : Type} (s : EosState M) : Nat :=
  ((s.log.getLast?).map Prod.fst).getD 0

/-! ## Kafka source configuration (src/packages/kafka/src/index.ts) -/

/-- `IKafkaHeaderNames` (index.ts lines 32-38). -/
structure KafkaHeaderNames where
  eventType : String
  sequenceNumber : String
  stream : String
  timestamp : String
  contentType : String
deriving DecidableEq

/-- Modelled from the spec: the `EventSourcedMetadata` string constants come
from `@walmartlabs/cookie-cutter-core`, which is not under src/; the concrete
strings are irrelevant to the claims, only the identity of
`DefaultKafkaHeaderNames` matters. -/
def eventSourcedMetadataEventType : String := "event_type"

/-- Modelled from the spec: see `eventSourcedMetadataEventType`. -/
def eventSourcedMetadataSequenceNumber : String := "sn"

/-- Modelled from the spec: see `eventSourcedMetadataEventType`. -/
def eventSourcedMetadataStream : String := "stream_id"

/-- Modelled from the spec: see `eventSourcedMetadataEventType`. -/
def eventSourcedMetadataTimestamp : String := "dt"

/-- `DefaultKafkaHeaderNames` (index.ts lines 40-46). -/
def DefaultKafkaHeaderNames : KafkaHeaderNames :=
  { eventType := eventSourcedMetadataEventType
    sequenceNumber := eventSourcedMetadataSequenceNumber
    stream := eventSourcedMetadataStream
    timestamp := eventSourcedMetadataTimestamp
    contentType := "X-Message-Type" }

/-- The caller-supplied configuration of `kafkaSource`
(`IKafkaBrokerConfiguration & IKafkaSubscriptionConfiguration`, index.ts
lines 48-52 and 54-80).  Optional fields are `Option`; `R` is the raw kafka
message type of the preprocessor. -/
structure KafkaSubscriptionInput (R : Type) where
  broker : String
  group : String
  topics : List String
  eos : Option Bool
  consumeTimeout : Option Nat
  maxBytesPerPartition : Option Nat
  offsetCommitInterval : Option Nat
  headerNames : Option KafkaHeaderNames
  preprocessor : Option (R → R)

/-- The configuration after `config.parse` filled in defaults. -/
structure KafkaSubscriptionParsed (R : Type) where
  broker : String
  group : String
  topics : List String
  eos : Bool
  consumeTimeout : Nat
  maxBytesPerPartition : Option Nat
  offsetCommitInterval : Nat
  headerNames : KafkaHeaderNames
  preprocessor : R → R

/-- Modelled from the spec: `kafkaSource` (index.ts lines 133-146): parse the configuration with the
defaults `consumeTimeout = 50`, `offsetCommitInterval = 5000`, `eos = false`,
`headerNames = DefaultKafkaHeaderNames` and an identity preprocessor.
`config.parse` itself lives in `@walmartlabs/cookie-cutter-core` (not under
src/) and is modelled as filling each absent optional field with the supplied
default; `maxBytesPerPartition` has no default in the call and stays
optional. -/
def kafkaSourceConfig {R : Type} (c : KafkaSubscriptionInput R) :
    KafkaSubscriptionParsed R :=
  { broker := c.broker
    group := c.group
    topics := c.topics
    eos := c.eos.getD false
    consumeTimeout := c.consumeTimeout.getD 50
    maxBytesPerPartition := c.maxBytesPerPartition
    offsetCommitInterval := c.offsetCommitInterval.getD 5000
    headerNames := c.headerNames.getD DefaultKafkaHeaderNames
    preprocessor := c.preprocessor.getD (fun m => m) }

/-! ## Sample inputs used by witnesses -/

/-- A target defining no methods at all. -/
def emptyTarget : DispatchTarget Nat Unit := ⟨fun _ => none⟩

/-- A sample message. -/
def sampleMsg : Message Nat := ⟨"Foo", 7⟩

/-- A store with all streams empty. -/
def sampleStore : EventStore Nat := fun _ => []

/-- A store whose every stream holds one event at sequence 1. -/
def sampleStore2 : EventStore Nat := fun _ => [⟨1, 5⟩]

/-- A small gapless stream. -/
def sampleEvents : List (SeqEvent Nat) := [⟨1, 10⟩, ⟨2, 20⟩, ⟨3, 30⟩]

/-- An event fetch that always succeeds with one event. -/
def sampleFetch : Nat → FetchResult (List (SeqEvent Nat)) :=
  fun _ => FetchResult.ok [⟨1, 5⟩]

/-- An event fetch that always fails. -/
def badFetch : Nat → FetchResult (List (SeqEvent Nat)) :=
  fun _ => FetchResult.unavailable

/-- A handler declaring one event holding the loaded state. -/
def sampleHandler : Nat → List Nat := fun s => [s]

/-- A loop environment that loads the attempt index as the state and accepts
only attempt 2. -/
def sampleLoopEnv : LoopEnv Nat := ⟨fun n => n, fun n => n == 2⟩

/-- A loop environment that rejects every attempt. -/
def rejectEnv : LoopEnv Nat := ⟨fun n => n, fun _ => false⟩

/-- A subscription configuration leaving every optional field absent. -/
def sampleKafkaInput : KafkaSubscriptionInput Nat :=
  ⟨"broker:9092", "group-1", ["topic-a"], none, none, none, none, none, none⟩

/-! ## Theorems -/

/-- Claim C9: `dispatch` performs at most three calls, in the fixed order
`before` (whole message), the on-handler (payload only), `after` (whole
message), each present exactly when the target defines the method, and its
result is exactly the on-handler's value — the `before`/`after` values are
discarded and the result is undefined when no on-handler exists.  In this
pure embedding awaiting is invisible; the trace order is the sequential call
order. -/
theorem dispatch_order_and_result {V C : Type} (pretty : String → String)
    (t : DispatchTarget V C) (msg : Message V) (ctx : C) :
    dispatch pretty t msg ctx =
      (optCall "before" (DispatchArg.whole msg) (t.method "before") ++
       optCall ("on" ++ pretty msg.type) (DispatchArg.payloadOnly msg.payload)
         (t.method ("on" ++ pretty msg.type)) ++
       optCall "after" (DispatchArg.whole msg) (t.method "after"),
       (t.method ("on" ++ pretty msg.type)).bind
         (fun f => f (DispatchArg.payloadOnly msg.payload) ctx)) := by
  cases hb : t.method "before" <;>
    cases ho : t.method ("on" ++ pretty msg.type) <;>
      cases ha : t.method "after" <;>
        simp [dispatch, dispatchCalls, runCalls, optCall, hb, ho, ha]

/-- Claim C3: when the target has no on-handler for the message's type tag,
`canDispatch` reports false and `dispatch` still completes, skipping the
event: its result is undefined and its trace holds only the `before`/`after`
calls, never the missing on-handler. -/
theorem canDispatch_false_skips {V C : Type} (pretty : String → String)
    (t : DispatchTarget V C) (msg : Message V) (ctx : C)
    (h : t.method ("on" ++ pretty msg.type) = none) :
    canDispatch pretty t msg = false ∧
    (dispatch pretty t msg ctx).2 = none ∧
    ∀ e ∈ (dispatch pretty t msg ctx).1, e.1 = "before" ∨ e.1 = "after" := by
  refine ⟨by simp [canDispatch, h], ?_, ?_⟩ <;>
    cases hb : t.method "before" <;>
      cases ha : t.method "after" <;>
        simp [dispatch, dispatchCalls, runCalls, hb, ha, h]

/-- Witness for C3 at a concrete target with no methods. -/
theorem canDispatch_false_skips_witness :
    emptyTarget.method ("on" ++ id sampleMsg.type) = none ∧
    (canDispatch id emptyTarget sampleMsg = false ∧
     (dispatch id emptyTarget sampleMsg ()).2 = none ∧
     ∀ e ∈ (dispatch id emptyTarget sampleMsg ()).1,
       e.1 = "before" ∨ e.1 = "after") :=
  ⟨rfl, canDispatch_false_skips id emptyTarget sampleMsg () rfl⟩

/-- The sequence numbers assigned by `numberFrom` are consecutive from
`start`. -/
theorem numberFrom_map_seq {P : Type} (s : Nat) (ps : List P) :
    (numberFrom s ps).map SeqEvent.seq = List.range' s ps.length := by
  induction ps generalizing s with
  | nil => rfl
  | cons p ps ih => simp [numberFrom, List.range', ih]

/-- `gaplessFromB` splits over append. -/
theorem gaplessFromB_append {P : Type} (es fs : List (SeqEvent P)) :
    ∀ s, gaplessFromB s (es ++ fs) =
      (gaplessFromB s es && gaplessFromB (s + es.length) fs) := by
  induction es with
  | nil => intro s; simp [gaplessFromB]
  | cons e es ih =>
    intro s
    have hs : s + 1 + es.length = s + (es.length + 1) := by omega
    simp [gaplessFromB, ih, Bool.and_assoc, hs]

/-- A batch numbered from `s` is gapless from `s`. -/
theorem gaplessFromB_numberFrom {P : Type} (ps : List P) :
    ∀ s, gaplessFromB s (numberFrom s ps) = true := by
  induction ps with
  | nil => intro s; rfl
  | cons p ps ih => intro s; simp [numberFrom, gaplessFromB, ih]

/-- On a cons, `lastSeqD` forgets the default. -/
theorem lastSeqD_cons {P : Type} (d : Nat) (e : SeqEvent P) (rest : List (SeqEvent P)) :
    lastSeqD d (e :: rest) = lastSeqD e.seq rest := by
  cases rest <;> simp [lastSeqD, List.getLast?]

/-- The last sequence number of a gapless-from-`d+1` stream is `d` plus its
length. -/
theorem lastSeqD_gapless {P : Type} (es : List (SeqEvent P)) :
    ∀ d, gaplessFromB (d + 1) es = true → lastSeqD d es = d + es.length := by
  induction es with
  | nil => intro d _; rfl
  | cons e rest ih =>
    intro d h
    rw [gaplessFromB, Bool.and_eq_true, beq_iff_eq] at h
    rw [lastSeqD_cons, h.1, ih (d + 1) h.2]
    simp [List.length_cons]
    omega

/-- For a gapless stream the last sequence number is the length. -/
theorem lastSeq_gapless {P : Type} (es : List (SeqEvent P))
    (h : gaplessFromB 1 es = true) : lastSeq es = es.length := by
  have := lastSeqD_gapless es 0 (by simpa using h)
  simpa [lastSeq] using this

/-- Appending the next batch to a gapless stream keeps it gapless. -/
theorem gapless_append_numberFrom {P : Type} (es : List (SeqEvent P)) (ps : List P)
    (h : gaplessFromB 1 es = true) :
    gaplessFromB 1 (es ++ numberFrom (lastSeq es + 1) ps) = true := by
  rw [gaplessFromB_append, h, lastSeq_gapless es h]
  have : 1 + es.length = es.length + 1 := by omega
  rw [this, gaplessFromB_numberFrom]
  rfl

/-- Claim C1: the event-sourced `commit` is a single conditional multi-event
append: when the stream's current last sequence number equals
`expectedVersion` it reports `Committed` and appends all of `newEvents` with
consecutive sequence numbers starting at `expectedVersion + 1`; when the
version check fails it reports `Conflict` and appends nothing; a partial
append of a strict non-empty prefix of the batch never occurs (the stream is
either unchanged or extended by the full numbered batch). -/
theorem commit_atomic {P : Type} (store : EventStore P) (sid : String)
    (expectedVersion : Nat) (newEvents : List P) :
    ((commit store sid expectedVersion newEvents).2 sid = store sid ∨
     (commit store sid expectedVersion newEvents).2 sid =
       store sid ++ numberFrom (expectedVersion + 1) newEvents) ∧
    (lastSeq (store sid) = expectedVersion →
      (commit store sid expectedVersion newEvents).1 =
        CommitResult.Committed (expectedVersion + newEvents.length) ∧
      (commit store sid expectedVersion newEvents).2 sid =
        store sid ++ numberFrom (expectedVersion + 1) newEvents ∧
      (numberFrom (expectedVersion + 1) newEvents).map SeqEvent.seq =
        List.range' (expectedVersion + 1) newEvents.length ∧
      ∀ s, s ≠ sid → (commit store sid expectedVersion newEvents).2 s = store s) ∧
    (lastSeq (store sid) ≠ expectedVersion →
      (commit store sid expectedVersion newEvents).1 = CommitResult.Conflict ∧
      (commit store sid expectedVersion newEvents).2 = store) := by
  by_cases h : lastSeq (store sid) = expectedVersion
  · simp [commit, h, numberFrom_map_seq]
    intro s hs hs2
    exact absurd hs2 hs
  · simp [commit, h]

/-- Witness for C1: a successful commit on an empty stream and a conflicting
commit against a non-empty stream. -/
theorem commit_atomic_witness :
    lastSeq (sampleStore "key-123") = 0 ∧
    (commit sampleStore "key-123" 0 [10, 20]).1 = CommitResult.Committed (0 + [10, 20].length) ∧
    lastSeq (sampleStore2 "key-123") ≠ 0 ∧
    (commit sampleStore2 "key-123" 0 [7]).1 = CommitResult.Conflict :=
  ⟨rfl,
   ((commit_atomic sampleStore "key-123" 0 [10, 20]).2.1 rfl).1,
   by decide,
   ((commit_atomic sampleStore2 "key-123" 0 [7]).2.2 (by decide)).1⟩

/-- Claim C4: the streaming commit never reports `Conflict`: it checks no
version precondition, unconditionally appends the batch with the next
available consecutive sequence numbers, keeps a gapless stream gapless, and
coincides exactly with the event-sourced `commit` invoked at the stream's
current version, so the sequence-numbering guarantee is shared. -/
theorem streamingCommit_no_conflict {P : Type} (store : EventStore P)
    (sid : String) (newEvents : List P) :
    (streamingCommit store sid newEvents).1 =
      CommitResult.Committed (lastSeq (store sid) + newEvents.length) ∧
    (streamingCommit store sid newEvents).1 ≠ CommitResult.Conflict ∧
    (streamingCommit store sid newEvents).2 sid =
      store sid ++ numberFrom (lastSeq (store sid) + 1) newEvents ∧
    (∀ s, s ≠ sid → (streamingCommit store sid newEvents).2 s = store s) ∧
    (gaplessFromB 1 (store sid) = true →
      gaplessFromB 1 ((streamingCommit store sid newEvents).2 sid) = true) ∧
    streamingCommit store sid newEvents =
      commit store sid (lastSeq (store sid)) newEvents := by
  refine ⟨by simp [streamingCommit], by simp [streamingCommit], by simp [streamingCommit],
    ?_, ?_, ?_⟩
  · intro s hs; simp [streamingCommit, hs]
  · intro hg
    have := gapless_append_numberFrom (store sid) newEvents hg
    simpa [streamingCommit] using this
  · simp [streamingCommit, commit]

/-- Witness for C4: streaming commits on a concrete store never conflict and
keep the stream gapless. -/
theorem streamingCommit_no_conflict_witness :
    gaplessFromB 1 (sampleStore2 "a") = true ∧
    (streamingCommit sampleStore2 "a" [3]).1 ≠ CommitResult.Conflict ∧
    gaplessFromB 1 ((streamingCommit sampleStore2 "a" [3]).2 "a") = true ∧
    "b" ≠ "a" ∧ (streamingCommit sampleStore2 "a" [3]).2 "b" = sampleStore2 "b" :=
  ⟨by decide,
   (streamingCommit_no_conflict sampleStore2 "a" [3]).2.1,
   (streamingCommit_no_conflict sampleStore2 "a" [3]).2.2.2.2.1 (by decide),
   by decide,
   (streamingCommit_no_conflict sampleStore2 "a" [3]).2.2.2.1 "b" (by decide)⟩

/-- Below a gapless stream's first sequence number, no events pass the
`eventsThrough` filter. -/
theorem eventsThrough_nil_of_lt {P : Type} (es : List (SeqEvent P)) (n : Nat) :
    ∀ s, n < s → gaplessFromB s es = true → eventsThrough es n = [] := by
  induction es with
  | nil => intro s _ _; rfl
  | cons e rest ih =>
    intro s hn h
    rw [gaplessFromB, Bool.and_eq_true, beq_iff_eq] at h
    have hnot : ¬ e.seq ≤ n := by omega
    simpa [eventsThrough, List.filter_cons, hnot] using ih (s + 1) (by omega) h.2

/-- On a gapless stream, `eventsThrough` is a positional take. -/
theorem eventsThrough_gapless {P : Type} (es : List (SeqEvent P)) (n : Nat) :
    ∀ s, gaplessFromB s es = true → eventsThrough es n = es.take (n + 1 - s) := by
  induction es with
  | nil => intro s _; simp [eventsThrough]
  | cons e rest ih =>
    intro s h
    rw [gaplessFromB, Bool.and_eq_true, beq_iff_eq] at h
    by_cases hn : e.seq ≤ n
    · have hs : n + 1 - s = (n + 1 - (s + 1)) + 1 := by omega
      rw [hs]
      simpa [eventsThrough, List.filter_cons, hn, List.take_succ_cons]
        using ih (s + 1) h.2
    · have hz : n + 1 - s = 0 := by omega
      rw [hz, List.take_zero]
      have hrest := eventsThrough_nil_of_lt rest n (s + 1) (by omega) h.2
      simpa [eventsThrough, List.filter_cons, hn] using hrest

/-- When `k` is below a gapless stream's first sequence number,
`eventsAfter` keeps everything. -/
theorem eventsAfter_all {P : Type} (es : List (SeqEvent P)) (k : Nat) :
    ∀ s, k < s → gaplessFromB s es = true → eventsAfter es k = es := by
  induction es with
  | nil => intro s _ _; rfl
  | cons e rest ih =>
    intro s hk h
    rw [gaplessFromB, Bool.and_eq_true, beq_iff_eq] at h
    have hlt : k < e.seq := by omega
    simpa [eventsAfter, List.filter_cons, hlt] using ih (s + 1) (by omega) h.2

/-- On a gapless stream, `eventsAfter` is a positional drop. -/
theorem eventsAfter_gapless {P : Type} (es : List (SeqEvent P)) (k : Nat) :
    ∀ s, gaplessFromB s es = true → eventsAfter es k = es.drop (k + 1 - s) := by
  induction es with
  | nil => intro s _; simp [eventsAfter]
  | cons e rest ih =>
    intro s h
    have h' := h
    rw [gaplessFromB, Bool.and_eq_true, beq_iff_eq] at h'
    by_cases hk : k < e.seq
    · have hz : k + 1 - s = 0 := by omega
      rw [hz, List.drop_zero]
      exact eventsAfter_all (e :: rest) k s (by omega) h
    · have hs : k + 1 - s = (k + 1 - (s + 1)) + 1 := by omega
      rw [hs]
      simpa [eventsAfter, List.filter_cons, hk, List.drop_succ_cons]
        using ih (s + 1) h'.2

/-- A positional take of a gapless stream is gapless. -/
theorem gaplessFromB_take {P : Type} (es : List (SeqEvent P)) :
    ∀ s m, gaplessFromB s es = true → gaplessFromB s (es.take m) = true := by
  induction es with
  | nil => intro s m _; simp [gaplessFromB]
  | cons e rest ih =>
    intro s m h
    rw [gaplessFromB, Bool.and_eq_true, beq_iff_eq] at h
    cases m with
    | zero => rfl
    | succ m =>
      rw [List.take_succ_cons, gaplessFromB, Bool.and_eq_true, beq_iff_eq]
      exact ⟨h.1, ih (s + 1) m h.2⟩

/-- Claim C2: for a gapless stream, replaying through sequence `n` from the
default state equals seeding from any consistent snapshot at sequence
`k ≤ n` (a snapshot whose state is the replay of events 1..k) and applying
only the events k+1..n; presence, absence or staleness of a snapshot never
changes the reconstructed state. -/
theorem replay_snapshot_equiv {S P : Type} (apply : S → P → S) (dflt : S)
    (es : List (SeqEvent P)) (k n : Nat) (snapState : S)
    (hg : gaplessFromB 1 es = true) (hkn : k ≤ n)
    (hsnap : snapState = replay apply dflt ((eventsThrough es k).map SeqEvent.payload)) :
    replay apply snapState ((eventsAfter (eventsThrough es n) k).map SeqEvent.payload) =
      replay apply dflt ((eventsThrough es n).map SeqEvent.payload) := by
  subst hsnap
  have hTn : eventsThrough es n = es.take n := by
    simpa using eventsThrough_gapless es n 1 hg
  have hTk : eventsThrough es k = es.take k := by
    simpa using eventsThrough_gapless es k 1 hg
  have hgn : gaplessFromB 1 (es.take n) = true := gaplessFromB_take es 1 n hg
  have hA : eventsAfter (es.take n) k = (es.take n).drop k := by
    simpa using eventsAfter_gapless (es.take n) k 1 hgn
  rw [hTn, hTk, hA]
  have h1 : (es.take n).take k = es.take k := by
    rw [List.take_take, Nat.min_eq_left hkn]
  have hsplit : es.take k ++ (es.take n).drop k = es.take n := by
    rw [← h1]
    exact List.take_append_drop k (es.take n)
  calc replay apply (replay apply dflt ((es.take k).map SeqEvent.payload))
         (((es.take n).drop k).map SeqEvent.payload)
      = replay apply dflt (((es.take k).map SeqEvent.payload) ++
          (((es.take n).drop k).map SeqEvent.payload)) := by
        simp [replay, List.foldl_append]
    _ = replay apply dflt ((es.take k ++ (es.take n).drop k).map SeqEvent.payload) := by
        rw [List.map_append]
    _ = replay apply dflt ((es.take n).map SeqEvent.payload) := by rw [hsplit]

/-- Witness for C2 on a concrete three-event stream with a snapshot at
sequence 1 and replay through sequence 2. -/
theorem replay_snapshot_equiv_witness :
    gaplessFromB 1 sampleEvents = true ∧ 1 ≤ 2 ∧
    (10 : Nat) = replay Nat.add 0 ((eventsThrough sampleEvents 1).map SeqEvent.payload) ∧
    replay Nat.add 10 ((eventsAfter (eventsThrough sampleEvents 2) 1).map SeqEvent.payload) =
      replay Nat.add 0 ((eventsThrough sampleEvents 2).map SeqEvent.payload) :=
  ⟨by decide, by decide, by decide,
   replay_snapshot_equiv Nat.add 0 sampleEvents 1 2 10 (by decide) (by decide) (by decide)⟩

/-- Claim C5: `load` never fails solely because the snapshot is absent,
corrupt or undeserializable — a corrupt snapshot degrades to exactly the
no-snapshot path, and the no-snapshot path replays from the default state at
sequence 0 and returns a StateRef whenever the event fetch succeeds; the only
failing input condition is a failure of the event fetch itself, which
surfaces as `StorageUnavailable`. -/
theorem load_snapshot_fallback {S P : Type} (apply : S → P → S) (dflt : S)
    (fetchEvents : Nat → FetchResult (List (SeqEvent P))) :
    load apply dflt fetchEvents SnapshotFetch.corrupt =
      load apply dflt fetchEvents SnapshotFetch.absent ∧
    (∀ evs, fetchEvents 0 = FetchResult.ok evs →
      load apply dflt fetchEvents SnapshotFetch.absent =
        Except.ok ⟨replay apply dflt (evs.map SeqEvent.payload), lastSeqD 0 evs⟩) ∧
    (∀ (snap : SnapshotFetch S) (e : LoadError),
      load apply dflt fetchEvents snap = Except.error e →
      e = LoadError.StorageUnavailable ∧
      fetchEvents (seedOf dflt snap).1 = FetchResult.unavailable) ∧
    (∀ snap : SnapshotFetch S,
      fetchEvents (seedOf dflt snap).1 = FetchResult.unavailable →
      load apply dflt fetchEvents snap = Except.error LoadError.StorageUnavailable) := by
  refine ⟨rfl, ?_, ?_, ?_⟩
  · intro evs hf
    simp [load, seedOf, hf]
  · intro snap e he
    cases hf : fetchEvents (seedOf dflt snap).1 with
    | ok evs => simp [load, hf] at he
    | unavailable =>
      refine ⟨?_, rfl⟩
      cases e
      rfl
  · intro snap hf
    simp [load, hf]

/-- Witness for C5 with a concrete fetch that succeeds and one that fails. -/
theorem load_snapshot_fallback_witness :
    sampleFetch 0 = FetchResult.ok [⟨1, 5⟩] ∧
    load Nat.add 0 sampleFetch SnapshotFetch.absent = Except.ok ⟨5, 1⟩ ∧
    load Nat.add 0 sampleFetch SnapshotFetch.corrupt =
      load Nat.add 0 sampleFetch SnapshotFetch.absent ∧
    badFetch (seedOf 0 (SnapshotFetch.absent : SnapshotFetch Nat)).1 =
      FetchResult.unavailable ∧
    load Nat.add 0 badFetch SnapshotFetch.absent =
      Except.error LoadError.StorageUnavailable :=
  ⟨rfl,
   by
    have h := (load_snapshot_fallback Nat.add 0 sampleFetch).2.1 [⟨1, 5⟩] rfl
    simpa [replay, lastSeqD] using h,
   (load_snapshot_fallback Nat.add 0 sampleFetch).1,
   rfl,
   (load_snapshot_fallback Nat.add 0 badFetch).2.2.2 SnapshotFetch.absent rfl⟩

/-- Claim C6: when an attempt's commit conflicts, the loop discards the
StateRef and the events the handler declared in that attempt and re-runs the
whole cycle against a fresh load; any events it ever reports as committed
are the handler's output on the freshly loaded state of the single accepted
attempt, every earlier attempt having conflicted. -/
theorem conflict_discards_and_retries {S E : Type} (handler : S → List E)
    (env : LoopEnv S) :
    (∀ fuel n, env.accepts n = false →
      dispatchLoop handler env (fuel + 1) n = dispatchLoop handler env fuel (n + 1)) ∧
    (∀ fuel n evs, dispatchLoop handler env fuel n = LoopOutcome.Committed evs →
      ∃ m, n ≤ m ∧ m < n + fuel ∧ env.accepts m = true ∧
        (∀ j, n ≤ j → j < m → env.accepts j = false) ∧
        evs = handler (env.loadAttempt m)) := by
  constructor
  · intro fuel n h
    simp [dispatchLoop, h]
  · intro fuel
    induction fuel with
    | zero => intro n evs h; simp [dispatchLoop] at h
    | succ fuel ih =>
      intro n evs h
      by_cases ha : env.accepts n = true
      · rw [dispatchLoop, if_pos ha] at h
        refine ⟨n, le_refl n, by omega, ha, ?_, ?_⟩
        · intro j hj hj2; omega
        · exact (LoopOutcome.Committed.inj h).symm
      · rw [dispatchLoop, if_neg ha] at h
        obtain ⟨m, hm1, hm2, hm3, hm4, hm5⟩ := ih (n + 1) evs h
        refine ⟨m, by omega, by omega, hm3, ?_, hm5⟩
        intro j hj hj2
        by_cases hjn : j = n
        · subst hjn; exact Bool.eq_false_iff.mpr ha
        · exact hm4 j (by omega) hj2

/-- Witness for C6: attempt 0 of the sample environment conflicts, so the
loop with one unit of fuel spent is the loop restarted at attempt 1. -/
theorem conflict_discards_and_retries_witness :
    sampleLoopEnv.accepts 0 = false ∧
    dispatchLoop sampleHandler sampleLoopEnv 4 0 =
      dispatchLoop sampleHandler sampleLoopEnv 3 1 :=
  ⟨rfl, (conflict_discards_and_retries sampleHandler sampleLoopEnv).1 3 0 rfl⟩

/-- Claim C7: the dispatch loop terminates: with enough retry budget it
reaches `Committed` at the first attempt the store accepts, and when the
store rejects every attempt it surfaces `MaxRetriesExceeded` once the capped
budget is spent. -/
theorem retry_convergence {S E : Type} (handler : S → List E) (env : LoopEnv S) :
    (∀ n m fuel, n ≤ m → m < n + fuel → env.accepts m = true →
      (∀ j, n ≤ j → j < m → env.accepts j = false) →
      dispatchLoop handler env fuel n =
        LoopOutcome.Committed (handler (env.loadAttempt m))) ∧
    (∀ n fuel, (∀ j, env.accepts j = false) →
      dispatchLoop handler env fuel n = LoopOutcome.MaxRetriesExceeded) := by
  constructor
  · intro n m fuel
    induction fuel generalizing n with
    | zero => intro h1 h2; omega
    | succ fuel ih =>
      intro h1 h2 h3 h4
      by_cases hnm : n = m
      · subst hnm
        rw [dispatchLoop, if_pos h3]
      · have hlt : n < m := by omega
        have hn : env.accepts n = false := h4 n (le_refl n) hlt
        rw [dispatchLoop, if_neg (by simp [hn])]
        exact ih (n + 1) (by omega) (by omega) h3 (fun j hj hj2 => h4 j (by omega) hj2)
  · intro n fuel h
    induction fuel generalizing n with
    | zero => rfl
    | succ fuel ih =>
      rw [dispatchLoop, if_neg (by simp [h n])]
      exact ih (n + 1)

/-- Witness for C7: the sample environment accepts attempt 2 only, so fuel 5
from attempt 0 commits the handler's output on the fresh load of attempt 2;
the always-rejecting environment exhausts fuel 3 into MaxRetriesExceeded. -/
theorem retry_convergence_witness :
    (0 : Nat) ≤ 2 ∧ 2 < 0 + 5 ∧ sampleLoopEnv.accepts 2 = true ∧
    dispatchLoop sampleHandler sampleLoopEnv 5 0 =
      LoopOutcome.Committed (sampleHandler (sampleLoopEnv.loadAttempt 2)) ∧
    dispatchLoop sampleHandler rejectEnv 3 0 = LoopOutcome.MaxRetriesExceeded :=
  ⟨by decide, by decide, rfl,
   (retry_convergence sampleHandler sampleLoopEnv).1 0 2 5 (by decide) (by decide) rfl
     (by intro j h0 hj; interval_cases j <;> rfl),
   (retry_convergence sampleHandler rejectEnv).2 0 3 (fun _ => rfl)⟩

/-- One EOS step preserves the coupling of the committed offset with the last
visible batch. -/
theorem eos_inv_step {M : Type} (s : EosState M) (a : EosAction M)
    (h : s.offset = lastLoggedOffset s) :
    (eosStep s a).offset = lastLoggedOffset (eosStep s a) := by
  cases a with
  | beginTxn => simpa [eosStep, lastLoggedOffset] using h
  | produce m =>
    cases ht : s.txn <;> simpa [eosStep, ht, lastLoggedOffset] using h
  | commitTxn o =>
    cases ht : s.txn with
    | none => simpa [eosStep, ht, lastLoggedOffset] using h
    | some buf => simp [eosStep, ht, lastLoggedOffset]
  | abortTxn => simpa [eosStep, lastLoggedOffset] using h
  | crash => simpa [eosStep, lastLoggedOffset] using h

/-- A run of EOS steps preserves the offset / visible-log coupling. -/
theorem eos_inv_run {M : Type} (actions : List (EosAction M)) :
    ∀ s : EosState M, s.offset = lastLoggedOffset s →
      (actions.foldl eosStep s).offset = lastLoggedOffset (actions.foldl eosStep s) := by
  induction actions with
  | nil => intro s h; simpa using h
  | cons a rest ih =>
    intro s h
    simpa [List.foldl_cons] using ih (eosStep s a) (eos_inv_step s a h)

/-- Claim C8: under exactly-once semantics the offset advance and the
visibility of the produced batch are one all-or-nothing unit: in every
reachable state the committed offset equals the offset recorded by the last
visible batch, and every single step either leaves both the offset and the
visible log untouched (in particular a crash or abort mid-transaction) or is
a transaction commit that makes the buffered batch visible and advances the
offset to that batch's offset simultaneously. -/
theorem eos_atomicity {M : Type} :
    (∀ actions : List (EosAction M),
      (eosRun actions).offset = lastLoggedOffset (eosRun actions)) ∧
    (∀ (s : EosState M) (a : EosAction M),
      ((eosStep s a).offset = s.offset ∧ (eosStep s a).log = s.log) ∨
      (∃ o buf, a = EosAction.commitTxn o ∧ s.txn = some buf ∧
        (eosStep s a).offset = o ∧ (eosStep s a).log = s.log ++ [(o, buf)])) := by
  constructor
  · intro actions
    exact eos_inv_run actions eosStart rfl
  · intro s a
    cases a with
    | beginTxn => left; simp [eosStep]
    | produce m => cases ht : s.txn <;> simp [eosStep, ht]
    | commitTxn o =>
      cases ht : s.txn with
      | none => left; simp [eosStep, ht]
      | some buf =>
        right
        exact ⟨o, buf, rfl, rfl, by simp [eosStep, ht], by simp [eosStep, ht]⟩
    | abortTxn => left; simp [eosStep]
    | crash => left; simp [eosStep]

/-- Claim C10: `kafkaSource` fills exactly the defaults `consumeTimeout = 50`,
`offsetCommitInterval = 5000`, `eos = false`,
`headerNames = DefaultKafkaHeaderNames` and an identity preprocessor into a
configuration missing those optional fields; the applied
`offsetCommitInterval` default is 5000 ms, not the 60000 ms the field's
documentation states. -/
theorem kafkaSource_defaults {R : Type} (c : KafkaSubscriptionInput R)
    (h1 : c.consumeTimeout = none) (h2 : c.offsetCommitInterval = none)
    (h3 : c.eos = none) (h4 : c.headerNames = none) (h5 : c.preprocessor = none) :
    (kafkaSourceConfig c).consumeTimeout = 50 ∧
    (kafkaSourceConfig c).offsetCommitInterval = 5000 ∧
    (kafkaSourceConfig c).eos = false ∧
    (kafkaSourceConfig c).headerNames = DefaultKafkaHeaderNames ∧
    (∀ m, (kafkaSourceConfig c).preprocessor m = m) ∧
    (kafkaSourceConfig c).offsetCommitInterval ≠ 60000 := by
  simp [kafkaSourceConfig, h1, h2, h3, h4, h5]

/-- Witness for C10 on a configuration with every optional field absent. -/
theorem kafkaSource_defaults_witness :
    sampleKafkaInput.consumeTimeout = none ∧
    sampleKafkaInput.offsetCommitInterval = none ∧
    sampleKafkaInput.eos = none ∧
    sampleKafkaInput.headerNames = none ∧
    sampleKafkaInput.preprocessor = none ∧
    ((kafkaSourceConfig sampleKafkaInput).consumeTimeout = 50 ∧
     (kafkaSourceConfig sampleKafkaInput).offsetCommitInterval = 5000 ∧
     (kafkaSourceConfig sampleKafkaInput).eos = false ∧
     (kafkaSourceConfig sampleKafkaInput).headerNames = DefaultKafkaHeaderNames ∧
     (∀ m, (kafkaSourceConfig sampleKafkaInput).preprocessor m = m) ∧
     (kafkaSourceConfig sampleKafkaInput).offsetCommitInterval ≠ 60000) :=
  ⟨rfl, rfl, rfl, rfl, rfl,
   kafkaSource_defaults sampleKafkaInput rfl rfl rfl rfl rfl⟩
